import Mathlib

/-!
Verification development for the sos plugin collection engine
(`sos/plugins/__init__.py`): a shallow embedding of the predicate
evaluator, path collector, copy-spec resolver, command executor and
substitution engine, together with theorems settling the specification
claims.  External collaborators (the OS filesystem, the subprocess
runner, the regex engine, the archive sink, the policy layer) are fields
of oracle structures; everything written by the engine itself is
explicit state.  File contents are modelled as lists of bytes.
-/

/-! ## Path and string helpers (posixpath / str operations) -/

/-- Does the first char list start with the second one?  (Containment
helper used to model the Python `in` operator on strings.) -/
def startsWithChars : List Char → List Char → Bool
  | _, [] => true
  | [], _ :: _ => false
  | a :: as, b :: bs => if a = b then startsWithChars as bs else false

/-- Does the first char list contain the second as a contiguous run?
Models Python `needle in hay` for strings. -/
def containsChars : List Char → List Char → Bool
  | [], needle => needle.isEmpty
  | c :: rest, needle => startsWithChars (c :: rest) needle || containsChars rest needle

/-- Python `needle in hay` on strings: contiguous substring test. -/
def strInStr (needle hay : String) : Bool :=
  containsChars hay.toList needle.toList

/-- `String.startsWith`, re-implemented on char lists so that concrete
instances evaluate inside the kernel. -/
def strStartsWith (s pre : String) : Bool :=
  startsWithChars s.toList pre.toList

/-- `String.endsWith`, re-implemented on char lists. -/
def strEndsWith (s suf : String) : Bool :=
  startsWithChars s.toList.reverse suf.toList.reverse

/-- `String.map`, re-implemented on char lists. -/
def strMapChars (f : Char → Char) (s : String) : String :=
  String.mk (s.toList.map f)

/-- `String.splitOn "/"`, re-implemented on char lists (the only
separator this module splits on). -/
def splitCharsOnSlash : List Char → List String
  | [] => [""]
  | c :: cs =>
    let r := splitCharsOnSlash cs
    if c = '/' then "" :: r
    else
      match r with
      | [] => [String.mk [c]]
      | x :: xs => (String.mk (c :: x.toList)) :: xs

/-- `p.splitOn "/"` on a string. -/
def splitOnSlash (p : String) : List String :=
  splitCharsOnSlash p.toList

/-- `_path_in_path_list(path, path_list)`:
`any(p in path for p in path_list)`. -/
def pathInPathList (path : String) (path_list : List String) : Bool :=
  path_list.any (fun p => strInStr p path)

/-- Split a path on `/` and drop empty components (helper for
`posixpath.relpath` and `posixpath.normpath`). -/
def splitParts (p : String) : List String :=
  (splitOnSlash p).filter (fun x => x ≠ "")

/-- Drop the common leading components of two component lists
(`posixpath.commonprefix` on split paths, as used by `relpath`). -/
def dropCommon : List String → List String → List String × List String
  | a :: as, b :: bs =>
    if a = b then dropCommon as bs else (a :: as, b :: bs)
  | as, bs => (as, bs)

/-- `posixpath.relpath(path, start)` for absolute, already-normalised
inputs: one `..` per remaining component of `start`, then the remaining
components of `path`. -/
def relpath (path start : String) : String :=
  let pr := dropCommon (splitParts path) (splitParts start)
  let parts := List.replicate pr.2.length ".." ++ pr.1
  if parts.isEmpty then "." else String.intercalate "/" parts

/-- `posixpath.normpath`: collapse `//`, drop `.`, resolve `..` without
escaping the root of an absolute path.  (The CPython special case of
preserving exactly two leading slashes is kept.) -/
def normpath (p : String) : String :=
  if p = "" then "."
  else
    let initialSlashes : Nat :=
      if strStartsWith p "/" then
        if strStartsWith p "//" ∧ ¬ strStartsWith p "///" then 2 else 1
      else 0
    let newComps := (splitOnSlash p).foldl
      (fun acc comp =>
        if comp = "" ∨ comp = "." then acc
        else if comp ≠ ".." ∨ (initialSlashes = 0 ∧ acc.isEmpty)
                ∨ (¬ acc.isEmpty ∧ acc.getLast? = some "..") then acc ++ [comp]
        else if ¬ acc.isEmpty then acc.dropLast
        else acc) []
    let path2 := String.mk (List.replicate initialSlashes '/')
      ++ String.intercalate "/" newComps
    if path2 = "" then "." else path2

/-- `posixpath.dirname`: everything up to the last `/`, with trailing
slashes stripped unless the head is all slashes. -/
def dirname (p : String) : String :=
  let cs := p.toList
  let afterLen := (cs.reverse.takeWhile (fun c => c ≠ '/')).length
  let head := cs.take (cs.length - afterLen)
  if head.isEmpty then ""
  else if head.all (fun c => c = '/') then String.mk head
  else String.mk ((head.reverse.dropWhile (fun c => c = '/')).reverse)

/-- `posixpath.join(a, b)` for two components. -/
def joinPath2 (a b : String) : String :=
  if strStartsWith b "/" then b
  else if a = "" ∨ strEndsWith a "/" then a ++ b
  else a ++ "/" ++ b

/-- `_file_is_compressed(path)`: known compression extensions. -/
def fileIsCompressed (path : String) : Bool :=
  strEndsWith path ".gz" ∨ strEndsWith path ".xz" ∨ strEndsWith path ".bz"
    ∨ strEndsWith path ".bz2"

/-- Modelled from the spec: `sos.utilities.tail` (imported by the plugin
module but not part of the collection-engine sources) returns only the
final bytes of a file's content, up to the given byte count. -/
def tailUtil (content : List Nat) (n : Nat) : List Nat :=
  content.drop (content.length - n)

/-- Fuel-indexed glob matching on `*` and `?`, modelling the stdlib
`fnmatch.fnmatch` for the patterns this module builds
(`'*' + cmd + '*'`); character classes are not used by those patterns.
The fuel is an upper bound on pattern+text length consumed per step. -/
def globMatchFuel : Nat → List Char → List Char → Bool
  | 0, _, _ => false
  | n + 1, p, t =>
    match p, t with
    | [], rest => rest.isEmpty
    | '*' :: ps, rest =>
      globMatchFuel n ps rest
        || (match rest with
            | [] => false
            | _ :: ts => globMatchFuel n ('*' :: ps) ts)
    | '?' :: ps, _ :: ts => globMatchFuel n ps ts
    | '?' :: _, [] => false
    | c :: ps, d :: ts => if c = d then globMatchFuel n ps ts else false
    | _ :: _, [] => false

/-- `fnmatch.fnmatch(text, pattern)` for the `*`/`?` fragment. -/
def globMatchStr (pattern text : String) : Bool :=
  globMatchFuel (pattern.length + text.length + 1) pattern.toList text.toList

/-! ## Data model -/

/-- What `os.lstat` reports a path to be (symlinks are not followed).
The four special-node flavours (block, char, fifo, socket) are archived
identically, so they are collapsed into one constructor. -/
inductive FileKind
  | symlink (target : String)
  | dir
  | special
  | regular
deriving Repr, DecidableEq

/-- The `lstat` result fields the engine reads. -/
structure FileMeta where
  kind : FileKind
  mode : Nat
  rdev : Nat
deriving Repr, DecidableEq

/-- Result of `os.listdir`: entries, an `ELOOP` failure (handled), or
another `OSError` (re-raised). -/
inductive LsRes
  | ok (entries : List String)
  | eloop
  | err (errno : Nat)
deriving Repr, DecidableEq

/-- One write into the archive collaborator. -/
inductive ArchiveEntry
  | file (srcpath dstpath : String)
  | str (content : List Nat) (dstpath : String)
  | bin (content : List Nat) (dstpath : String)
  | link (target dstpath : String)
  | node (path : String) (mode : Nat) (dev : Nat)
deriving Repr, DecidableEq

/-- An entry of `self.copied_files` (the CopiedFileRecord ledger). -/
structure CopiedFile where
  srcpath : String
  dstpath : String
  symlink : Bool
  pointsto : Option String
deriving Repr, DecidableEq

/-- An entry of `self.executed_commands` (the ExecutedCommandRecord
ledger); Python stores `binary` as the strings `yes`/`no`. -/
structure ExecRecord where
  exe : String
  file : Option String
  binary : Bool
deriving Repr, DecidableEq

/-- The data of a `SoSPredicate`. -/
structure SoSPred where
  dry_run : Bool
  kmods : List String
  services : List String
deriving Repr, DecidableEq

/-- The policy collaborator consulted by predicate evaluation:
`is_module_loaded` and `service_is_running`. -/
structure Host where
  moduleLoaded : String → Bool := fun _ => false
  serviceRunning : String → Bool := fun _ => false

/-- The fields of `self.commons['cmdlineopts']` read by this module. -/
structure CmdlineOpts where
  dry_run : Bool := false
  chroot : String := "auto"
  log_size : Nat := 25
  all_logs : Bool := false
deriving Repr, DecidableEq

/-- A `SoSCommand`: the keyword arguments of `_add_cmd_output`, later
unpacked into `_get_cmd_output_now`. -/
structure SoSCommand where
  cmd : String
  suggest_filename : Option String := none
  root_symlink : Option String := none
  timeout : Int := 300
  stderr : Bool := true
  chroot : Bool := true
  runat : Option String := none
  env : Option (List (String × String)) := none
  binary : Bool := false
  sizelimit : Option Nat := none
  subdir : Option String := none
deriving Repr, DecidableEq

/-- Result dict of `sos_get_command_output`: exit status and captured
output bytes. -/
structure CmdResult where
  status : Int
  output : List Nat
deriving Repr, DecidableEq

/-- The argument tuple handed to the external `sos_get_command_output`
(the subprocess boundary). -/
structure ExecParams where
  prog : String
  timeout : Int
  stderr : Bool
  chroot : Option String
  chdir : Option String
  env : Option (List (String × String))
  binary : Bool
  sizelimit : Option Nat
deriving Repr, DecidableEq

/-- The mutable per-plugin state of `Plugin.__init__`, plus the plugin
name and the archive parameters the engine reads
(`commons['cmddir']`, `archive.name_max()`, `archive.get_archive_path()`). -/
structure PluginState where
  timeout_hit : Bool := false
  sysroot : String := "/"
  forbidden_paths : List String := []
  copied_files : List CopiedFile := []
  copy_paths : List String := []
  copy_strings : List (List Nat × String) := []
  collect_cmds : List SoSCommand := []
  executed_commands : List ExecRecord := []
  archive : List ArchiveEntry := []
  predicate : Option SoSPred := none
  cmd_predicate : Option SoSPred := none
  plugName : String := "plug"
  cmddir : String := "sos_commands"
  nameMax : Nat := 255
  archivePath : String := "/tmp/sosreport"
deriving Repr, DecidableEq

/-- The filesystem oracle: every `os`/`glob` query the engine makes.
`statSize` is the `st_size` of `os.stat` in `add_copy_spec` (`none` for
`OSError`); `statErr` is the errno of the probing `os.stat` in
`_copy_symlink` (`none` for success). -/
structure FS where
  lstat : String → Option FileMeta := fun _ => none
  statSize : String → Option Nat := fun _ => none
  statErr : String → Option Nat := fun _ => none
  getmtime : String → Option Int := fun _ => none
  glob : String → List String := fun _ => []
  readlink : String → String := fun _ => ""
  realpath : String → String := fun p => p
  isdir : String → Bool := fun _ => false
  listdir : String → LsRes := fun _ => LsRes.ok []
  accessR : String → Bool := fun _ => true
  content : String → List Nat := fun _ => []

/-! ## Sysroot translation and forbidden paths -/

/-- `Plugin.use_sysroot`: the sysroot differs from `/`. -/
def useSysroot (s : PluginState) : Bool :=
  s.sysroot ≠ "/"

/-- `Plugin.join_sysroot`: strip one leading separator, then join under
the sysroot. -/
def joinSysroot (s : PluginState) (path : String) : String :=
  joinPath2 s.sysroot (if strStartsWith path "/" then path.drop 1 else path)

/-- `Plugin.strip_sysroot`. -/
def stripSysroot (s : PluginState) (path : String) : String :=
  if ¬ useSysroot s then path
  else if strStartsWith path s.sysroot then path.drop s.sysroot.length
  else path

/-- `Plugin._is_forbidden_path`: sysroot-join the path, then test
membership-as-substring against the registered forbidden paths. -/
def isForbiddenPath (s : PluginState) (path : String) : Bool :=
  pathInPathList (if useSysroot s then joinSysroot s path else path)
    s.forbidden_paths

/-! ## Predicate evaluator (`SoSPredicate.__nonzero__`) -/

/-- `SoSPredicate.__nonzero__`: fold the module/service checks, return
`True` for the null predicate, else the folded value and `not dry_run`. -/
def sosPredNonzero (h : Host) (p : SoSPred) : Bool :=
  let pvalue := p.kmods.foldl (fun acc k => acc || h.moduleLoaded k) false
  let pvalue2 := p.services.foldl (fun acc sv => acc || h.serviceRunning sv) pvalue
  if ¬ (¬ p.kmods.isEmpty ∨ ¬ p.services.isEmpty ∨ p.dry_run) then true
  else pvalue2 && !p.dry_run

/-- `Plugin.get_predicate(cmd, pred)`. -/
def getPredicate (s : PluginState) (cmd : Bool) (pred : Option SoSPred) :
    Option SoSPred :=
  match pred with
  | some p => some p
  | none =>
    if cmd then
      match s.cmd_predicate with
      | some cp => some cp
      | none => s.predicate
    else s.predicate

/-- `Plugin.test_predicate(cmd, pred)`: evaluate the effective predicate,
`False` when none is set. -/
def testPredicate (h : Host) (s : PluginState) (cmd : Bool)
    (pred : Option SoSPred) : Bool :=
  match getPredicate s cmd pred with
  | some p => sosPredNonzero h p
  | none => false

/-! ## CopySpec resolver (`add_copy_spec`) -/

/-- `Plugin._add_copy_paths` restricted to one path: `set.update`,
modelled as append-if-absent on an insertion-ordered list. -/
def addCopyPathsOne (ps : List String) (f : String) : List String :=
  if f ∈ ps then ps else ps ++ [f]

/-- Python `if sizelimit and current_size > sizelimit`: `None` and `0`
are falsy and disable the cap. -/
def overLimit (sl : Option Nat) (n : Nat) : Bool :=
  match sl with
  | none => false
  | some v => if v = 0 then false else decide (n > v)

/-- The `getmtime` helper of `add_copy_spec`: `OSError` maps to 0. -/
def getmtimeOr0 (fs : FS) (p : String) : Int :=
  (fs.getmtime p).getD 0

/-- Stable descending insertion by modification time: an element is
placed after every already-inserted element of greater-or-equal mtime. -/
def insertMtimeDesc (fs : FS) (x : String) : List String → List String
  | [] => [x]
  | y :: ys =>
    if getmtimeOr0 fs y < getmtimeOr0 fs x then x :: y :: ys
    else y :: insertMtimeDesc fs x ys

/-- `files.sort(key=getmtime, reverse=True)`: stable sort, newest
first. -/
def sortByMtimeDesc (fs : FS) (files : List String) : List String :=
  files.foldl (fun acc x => insertMtimeDesc fs x acc) []

/-- Output of the accumulation loop of `add_copy_spec`: the state (with
`copy_paths` grown), the running byte total, the `limit_reached` flag,
the loop variable `_file` after exit, and the list of files that were
actually examined (`os.stat`-ed). -/
structure SpecLoopOut where
  state : PluginState
  cur : Nat
  limitReached : Bool
  lastFile : Option String
  examined : List String
deriving Repr, DecidableEq

/-- The `for _file in files:` loop of `add_copy_spec`: skip forbidden
paths, accumulate sizes (a failed `stat` adds nothing but the file is
still added), break the moment the running total exceeds the budget. -/
def copySpecLoop (fs : FS) (sl : Option Nat) :
    PluginState → List String → Nat → Option String → SpecLoopOut
  | s, [], cur, last => ⟨s, cur, false, last, []⟩
  | s, f :: rest, cur, _ =>
    if isForbiddenPath s f then copySpecLoop fs sl s rest cur (some f)
    else
      let cur2 := cur + (fs.statSize f).getD 0
      if overLimit sl cur2 then ⟨s, cur2, true, some f, [f]⟩
      else
        let out := copySpecLoop fs sl
          { s with copy_paths := addCopyPathsOne s.copy_paths f } rest cur2 (some f)
        ⟨out.state, out.cur, out.limitReached, out.lastFile, f :: out.examined⟩

/-- The `"<mangled>.tailed"` artifact name: strip leading separators,
turn the remaining separators into dots, append `.tailed`. -/
def tailedName (f : String) : String :=
  let fname := if strStartsWith f "/" then
      String.mk (f.toList.dropWhile (fun ch => ch = '/'))
    else f
  strMapChars (fun ch => if ch = '/' then '.' else ch) fname ++ ".tailed"

/-- The relative symlink target placed at the original location of a
tailed file: `os.path.join(relpath('/', dirname(f)), 'sos_strings',
plugin_name, strfile)`. -/
def tailedLinkPath (plugName f : String) : String :=
  joinPath2 (joinPath2 (joinPath2 (relpath "/" (dirname f)) "sos_strings")
    plugName) (tailedName f)

/-- `Plugin.add_string_as_file`: predicate-gated append to
`copy_strings`. -/
def addStringAsFile (h : Host) (s : PluginState) (content : List Nat)
    (filename : String) (pred : Option SoSPred) : PluginState :=
  if ¬ testPredicate h s false pred then s
  else { s with copy_strings := s.copy_strings ++ [(content, filename)] }

/-- The copy-spec after sysroot translation (`if self.use_sysroot():
copyspec = self.join_sysroot(copyspec)`). -/
def specPath (s : PluginState) (copyspec : String) : String :=
  if useSysroot s then joinSysroot s copyspec else copyspec

/-- The per-copyspec body of `add_copy_spec`: glob, sort newest-first,
run the accumulation loop, and on overflow tail the last examined file
(when enabled and not compressed) into a string artifact plus a relative
symlink at the original location.  Note the source passes the full
`sizelimit` to `tail`, not the remaining budget. -/
def processOneSpec (fs : FS) (h : Host) (s : PluginState) (sl : Option Nat)
    (tailit : Bool) (copyspec0 : String) : PluginState :=
  let files := fs.glob (specPath s copyspec0)
  if files.isEmpty then s
  else
    let sorted := sortByMtimeDesc fs files
    let out := copySpecLoop fs sl s sorted 0 none
    if out.limitReached && tailit then
      match out.lastFile with
      | some f =>
        if ¬ fileIsCompressed f then
          let s2 := addStringAsFile h out.state
            (tailUtil (fs.content f) (sl.getD 0)) (tailedName f) none
          { s2 with archive := s2.archive
              ++ [ArchiveEntry.link (tailedLinkPath s2.plugName f) f] }
        else out.state
      | none => out.state
    else out.state

/-- The `for copyspec in copyspecs:` loop: an empty element returns
`False` immediately, keeping the state accumulated so far. -/
def addCopySpecLoop (fs : FS) (h : Host) (sl : Option Nat) (tailit : Bool) :
    PluginState → List String → PluginState × Option Bool
  | s, [] => (s, none)
  | s, spec :: rest =>
    if spec = "" then (s, some false)
    else addCopySpecLoop fs h sl tailit (processOneSpec fs h s sl tailit spec) rest

/-- `Plugin.add_copy_spec(copyspecs, sizelimit, tailit, pred)`:
predicate gate, size-limit defaulting (`log_size` default, `all_logs`
disables, megabytes to bytes), empty-list early `False`, then the spec
loop. -/
def addCopySpec (fs : FS) (h : Host) (opts : CmdlineOpts) (s : PluginState)
    (copyspecs : List String) (sizelimit : Option Nat) (tailit : Bool)
    (pred : Option SoSPred) : PluginState × Option Bool :=
  if ¬ testPredicate h s false pred then (s, none)
  else
    let sl0 := match sizelimit with
      | none => some opts.log_size
      | some v => some v
    let sl1 := if opts.all_logs then none else sl0
    let sl : Option Nat := match sl1 with
      | none => none
      | some v => if v = 0 then some v else some (v * 1024 * 1024)
    if copyspecs.isEmpty then (s, some false)
    else addCopySpecLoop fs h sl tailit s copyspecs

/-! ## Command executor (`get_command_output`, `_get_cmd_output_now`) -/

/-- Build the argument tuple for `sos_get_command_output` from the
keyword arguments of `get_command_output` and the resolved root. -/
def mkExecParams (prog : String) (timeout : Int) (stderr : Bool)
    (root : Option String) (runat : Option String)
    (env : Option (List (String × String))) (binary : Bool)
    (sizelimit : Option Nat) : ExecParams :=
  { prog := prog, timeout := timeout, stderr := stderr, chroot := root,
    chdir := runat, env := env, binary := binary, sizelimit := sizelimit }

/-- The keyword arguments of `get_command_output`. -/
structure GCOArgs where
  prog : String
  timeout : Int := 300
  stderr : Bool := true
  chroot : Bool := true
  runat : Option String := none
  env : Option (List (String × String)) := none
  binary : Bool := false
  sizelimit : Option Nat := none
deriving Repr, DecidableEq

/-- Python `if root and root != '/'`: the root is truthy (a non-empty
string) and differs from `/`. -/
def rootTruthyNotSlash : Option String → Bool
  | none => false
  | some r => if r = "" then false else if r = "/" then false else true

/-- `Plugin.get_command_output`: timeout no-op, root resolution, one
external execution, and on exit status 126/127 under a real chroot (when
chroot is not globally forced) a single recursive retry with
`chroot=False` (the omitted keyword arguments revert to their defaults).
Returns the result handed back to the caller together with the trace of
external executions performed.  The fuel only serves Lean's termination;
the retry always resolves `root = None`, so depth 2 suffices. -/
def getCommandOutput (runExt : ExecParams → CmdResult) (opts : CmdlineOpts)
    (sysroot : String) (timeoutHit : Bool) :
    Nat → GCOArgs → Option CmdResult × List ExecParams
  | 0, _ => (none, [])
  | Nat.succ fuel, a =>
    if timeoutHit then (none, [])
    else
      let root := if a.chroot || opts.chroot = "always" then some sysroot else none
      let p := mkExecParams a.prog a.timeout a.stderr root a.runat a.env
        a.binary a.sizelimit
      let result := runExt p
      if result.status = 126 ∨ result.status = 127 then
        if rootTruthyNotSlash root then
          if ¬ (opts.chroot = "always") then
            let inner := getCommandOutput runExt opts sysroot timeoutHit fuel
              { a with chroot := false, stderr := true, sizelimit := none }
            (inner.1, p :: inner.2)
          else (some result, [p])
        else (some result, [p])
      else (some result, [p])

/-- `_mangle_command` step 1: the regex `^/(usr/|)(bin|sbin)/` strip. -/
def stripBinDirs (s : String) : String :=
  if strStartsWith s "/usr/bin/" then s.drop 9
  else if strStartsWith s "/usr/sbin/" then s.drop 10
  else if strStartsWith s "/bin/" then s.drop 5
  else if strStartsWith s "/sbin/" then s.drop 6
  else s

/-- Characters kept by the regex `[^\w\-\.\/]+` replacement (ASCII
`\w`). -/
def isWordish (c : Char) : Bool :=
  c.isAlphanum ∨ c = '_' ∨ c = '-' ∨ c = '.' ∨ c = '/'

/-- Replace each run of non-kept characters with a single `_`; the flag
records whether the previous character was part of such a run. -/
def collapseRuns : List Char → Bool → List Char
  | [], _ => []
  | c :: cs, inRun =>
    if isWordish c then c :: collapseRuns cs false
    else if inRun then collapseRuns cs true
    else '_' :: collapseRuns cs true

/-- Python `str.strip(chars)`: drop the given characters from both
ends. -/
def stripEnds (cs : List Char) (bad : Char → Bool) : List Char :=
  ((cs.dropWhile bad).reverse.dropWhile bad).reverse

/-- `_mangle_command(command, name_max)`. -/
def mangleCommand (command : String) (nameMax : Nat) : String :=
  let m1 := stripBinDirs command
  let m2 := String.mk (collapseRuns m1.toList false)
  let m3 := strMapChars (fun c => if c = '/' then '.' else c) m2
  let m4 := String.mk (stripEnds m3.toList
    (fun c => c = ' ' ∨ c = '.' ∨ c = '_' ∨ c = '-'))
  String.mk (m4.toList.take nameMax)

/-- The collision loop of `_make_command_filename` (`while True` with a
numeric suffix), fuel-bounded. -/
def findUnusedName (pathEx : String → Bool) (outfn : String) :
    Nat → Nat → String
  | 0, inc => outfn ++ "_" ++ toString inc
  | cf + 1, inc =>
    let newfn := outfn ++ "_" ++ toString inc
    if pathEx newfn then findUnusedName pathEx outfn cf (inc + 1) else newfn

/-- `Plugin._make_command_filename(exe, subdir)`: plugin directory (one
subdir level), mangled command name, collision avoidance via
`os.path.exists`. -/
def makeCommandFilename (pathEx : String → Bool) (cmddir plugName : String)
    (nameMax : Nat) (exe : String) (subdir : Option String) (cfuel : Nat) :
    String :=
  let pdir := match subdir with
    | some sd =>
      if sd = "" then plugName
      else plugName ++ "/" ++ ((splitOnSlash sd).headD "")
    | none => plugName
  let outfn := joinPath2 (joinPath2 cmddir pdir) (mangleCommand exe nameMax)
  if pathEx outfn then findUnusedName pathEx outfn cfuel 2 else outfn

/-- The name `_get_cmd_output_now` mangles: the suggested filename when
one is given (and non-empty), else the command itself. -/
def effectiveExe (c : SoSCommand) : String :=
  match c.suggest_filename with
  | some sf => if sf = "" then c.cmd else sf
  | none => c.cmd

/-- Repack a queued `SoSCommand` into `get_command_output` keyword
arguments. -/
def gcoArgsOf (c : SoSCommand) : GCOArgs :=
  { prog := c.cmd, timeout := c.timeout, stderr := c.stderr,
    chroot := c.chroot, runat := c.runat, env := c.env, binary := c.binary,
    sizelimit := c.sizelimit }

/-- `Plugin._get_cmd_output_now`: timeout no-op, run the command, archive
the output (binary or text), optional root symlink, and append exactly
one ExecutedCommandRecord whose `file` is the archive-relative name.
Returns the new state and the value returned to the caller. -/
def getCmdOutputNow (runExt : ExecParams → CmdResult) (pathEx : String → Bool)
    (opts : CmdlineOpts) (s : PluginState) (c : SoSCommand)
    (fuel cfuel : Nat) : PluginState × Option String :=
  if s.timeout_hit then (s, none)
  else
    match (getCommandOutput runExt opts s.sysroot s.timeout_hit fuel
        (gcoArgsOf c)).1 with
    | none => (s, none)
    | some result =>
      let outfn := makeCommandFilename pathEx s.cmddir s.plugName s.nameMax
        (effectiveExe c) c.subdir cfuel
      let outfnStrip := outfn.drop (s.cmddir.length + 1)
      let ar1 := if c.binary then s.archive ++ [ArchiveEntry.bin result.output outfn]
        else s.archive ++ [ArchiveEntry.str result.output outfn]
      let ar2 := match c.root_symlink with
        | some rs => if rs = "" then ar1 else ar1 ++ [ArchiveEntry.link outfn rs]
        | none => ar1
      ({ s with
          archive := ar2,
          executed_commands := s.executed_commands
            ++ [{ exe := c.cmd, file := some outfnStrip, binary := c.binary }] },
        some (joinPath2 s.archivePath outfn))

/-! ## Substitution engine (`do_cmd_output_sub`) -/

/-- Does an ExecutedCommandRecord take part in a `do_cmd_output_sub`
pass for `cmd`: output collected, not binary, and the executable matches
the glob `'*' + cmd + '*'`. -/
def cmdGlobMatches (cmd : String) (e : ExecRecord) : Bool :=
  e.file.isSome && !e.binary && globMatchStr ("*" ++ cmd ++ "*") e.exe

/-- The `for called in self.executed_commands:` loop of
`do_cmd_output_sub`.  `subnOf` is the regex oracle: for a matching
record it yields the substituted content and the replacement count, or
`none` when processing raises (the `except` clause then leaves
`replacements = None` and the call returns).  Note the count of each
matching record overwrites the previous one. -/
def doCmdOutputSubLoop (subnOf : ExecRecord → Option (List Nat × Nat))
    (cmddir globstr : String) :
    List ExecRecord → List ArchiveEntry → Option Nat →
      List ArchiveEntry × Option Nat
  | [], ar, repl => (ar, repl)
  | e :: rest, ar, repl =>
    match e.file with
    | none => doCmdOutputSubLoop subnOf cmddir globstr rest ar repl
    | some f =>
      if e.binary then doCmdOutputSubLoop subnOf cmddir globstr rest ar repl
      else if globMatchStr globstr e.exe then
        match subnOf e with
        | none => (ar, none)
        | some pr =>
          let ar2 := if pr.2 ≠ 0 then
              ar ++ [ArchiveEntry.str pr.1 (joinPath2 cmddir f)]
            else ar
          doCmdOutputSubLoop subnOf cmddir globstr rest ar2 (some pr.2)
      else doCmdOutputSubLoop subnOf cmddir globstr rest ar repl

/-- `Plugin.do_cmd_output_sub(cmd, regexp, subst)`: early `0` for an
empty command ledger, else the loop starting from `replacements =
None`. -/
def doCmdOutputSub (s : PluginState) (cmd : String)
    (subnOf : ExecRecord → Option (List Nat × Nat)) :
    PluginState × Option Nat :=
  let globstr := "*" ++ cmd ++ "*"
  if s.executed_commands.isEmpty then (s, some 0)
  else
    let r := doCmdOutputSubLoop subnOf s.cmddir globstr s.executed_commands
      s.archive none
    ({ s with archive := r.1 }, r.2)

/-- The claim's reading of `do_cmd_output_sub`: the total replacement
count summed over every matching entry, `none` on a processing error. -/
def sumMatchedCounts (subnOf : ExecRecord → Option (List Nat × Nat))
    (mb : ExecRecord → Bool) : List ExecRecord → Option Nat
  | [] => some 0
  | e :: rest =>
    if mb e then
      match subnOf e with
      | none => none
      | some pr => (sumMatchedCounts subnOf mb rest).map (fun m => pr.2 + m)
    else sumMatchedCounts subnOf mb rest

/-! ## Path collector (`_do_copy_path` and friends) -/

/-- The regular-file tail of `_do_copy_path`: a file unreadable by mode
bits becomes a zero-length placeholder, otherwise the content is
archived; either way a CopiedFileRecord is appended.  (A directory that
failed the `os.access` read check also reaches this code.) -/
def copyRegular (s : PluginState) (srcpath dest1 : String) (st : FileMeta) :
    PluginState :=
  let ar := if st.mode &&& 0o444 = 0 then
      s.archive ++ [ArchiveEntry.str [] dest1]
    else s.archive ++ [ArchiveEntry.file srcpath dest1]
  { s with
      archive := ar,
      copied_files := s.copied_files
        ++ [{ srcpath := srcpath, dstpath := dest1, symlink := false,
              pointsto := none }] }

mutual

/-- `Plugin._do_copy_path(srcpath, dest)`: timeout no-op, forbidden-path
short-circuit (both before any `lstat`), destination defaulting and
sysroot stripping, then dispatch on the `lstat` file kind.  Returns the
new state together with the trace of `stat`/`lstat` calls performed on
the filesystem, or the errno of an uncaught `OSError` (only `_copy_dir`
re-raises).  The fuel bounds the recursion for Lean; each recursive call
decreases it. -/
def doCopyPath (fs : FS) (fuel : Nat) (s : PluginState) (srcpath : String)
    (dest : Option String) : Except Nat (PluginState × List String) :=
  match fuel with
  | 0 => Except.ok (s, [])
  | Nat.succ fuel2 =>
    if s.timeout_hit then Except.ok (s, [])
    else if isForbiddenPath s srcpath then Except.ok (s, [])
    else
      let dest0 := match dest with
        | none => srcpath
        | some d => if d = "" then srcpath else d
      let dest1 := if useSysroot s then stripSysroot s dest0 else dest0
      match fs.lstat srcpath with
      | none => Except.ok (s, [srcpath])
      | some st =>
        match st.kind with
        | FileKind.symlink linkdest =>
          match copySymlinkStep fs fuel2 s srcpath linkdest with
          | Except.error e => Except.error e
          | Except.ok pr => Except.ok (pr.1, srcpath :: pr.2)
        | FileKind.dir =>
          if fs.accessR srcpath then
            match fs.listdir srcpath with
            | LsRes.eloop => Except.ok (s, [srcpath])
            | LsRes.err e => Except.error e
            | LsRes.ok entries =>
              match copyDirList fs fuel2 s srcpath entries with
              | Except.error e => Except.error e
              | Except.ok pr => Except.ok (pr.1, srcpath :: pr.2)
          else Except.ok (copyRegular s srcpath dest1 st, [srcpath])
        | FileKind.special =>
          Except.ok ({ s with
              archive := s.archive
                ++ [ArchiveEntry.node srcpath st.mode st.rdev] },
            [srcpath])
        | FileKind.regular =>
          Except.ok (copyRegular s srcpath dest1 st, [srcpath])
termination_by (fuel, 1, 0)

/-- `Plugin._copy_symlink(srcpath)`: record the (relativised) link,
stop at directory targets, append the CopiedFileRecord, probe the
target for an indirect loop (errno 40), and recurse into the target
unless it is the source itself. -/
def copySymlinkStep (fs : FS) (fuel : Nat) (s : PluginState)
    (srcpath linkdest : String) : Except Nat (PluginState × List String) :=
  let absdest := normpath (joinPath2 (dirname srcpath) linkdest)
  let reldest :=
    if strStartsWith linkdest "/" then
      let rd := relpath linkdest (fs.realpath (dirname srcpath))
      if useSysroot s then rd.drop 3 else rd
    else linkdest
  let dstpath := stripSysroot s srcpath
  let s1 := { s with archive := s.archive ++ [ArchiveEntry.link reldest dstpath] }
  if fs.isdir absdest then Except.ok (s1, [])
  else
    let s2 := { s1 with
        copied_files := s1.copied_files
          ++ [{ srcpath := srcpath, dstpath := dstpath, symlink := true,
                pointsto := some linkdest }] }
    match fs.statErr absdest with
    | some 40 => Except.ok (s2, [absdest])
    | _ =>
      if absdest = srcpath then Except.ok (s2, [absdest])
      else
        match doCopyPath fs fuel s2 (stripSysroot s absdest) none with
        | Except.error e => Except.error e
        | Except.ok pr => Except.ok (pr.1, absdest :: pr.2)
termination_by (fuel, 2, 0)

/-- `Plugin._copy_dir(srcpath)`: recursively copy each listing entry
(the `ELOOP`/other-`OSError` split is handled by the caller before this
loop runs). -/
def copyDirList (fs : FS) (fuel : Nat) (s : PluginState) (dirpath : String)
    (entries : List String) : Except Nat (PluginState × List String) :=
  match entries with
  | [] => Except.ok (s, [])
  | a :: rest =>
    match doCopyPath fs fuel s (joinPath2 dirpath a) none with
    | Except.error e => Except.error e
    | Except.ok pr =>
      match copyDirList fs fuel pr.1 dirpath rest with
      | Except.error e => Except.error e
      | Except.ok pr2 => Except.ok (pr2.1, pr.2 ++ pr2.2)
termination_by (fuel, 2, entries.length)

end

/-! ## Collection orchestrator (`collect`) -/

/-- `Plugin._collect_copy_specs`: drain the CopyPathSet through
`_do_copy_path`. -/
def collectCopySpecsLoop (fs : FS) (fuel : Nat) :
    PluginState → List String → Except Nat PluginState
  | s, [] => Except.ok s
  | s, p :: rest =>
    match doCopyPath fs fuel s p none with
    | Except.error e => Except.error e
    | Except.ok pr => collectCopySpecsLoop fs fuel pr.1 rest

/-- Phase one of `collect`. -/
def collectCopySpecs (fs : FS) (fuel : Nat) (s : PluginState) :
    Except Nat PluginState :=
  collectCopySpecsLoop fs fuel s s.copy_paths

/-- `Plugin._collect_cmd_output`: drain the queued commands through
`_get_cmd_output_now`. -/
def collectCmdOutputLoop (runExt : ExecParams → CmdResult)
    (pathEx : String → Bool) (opts : CmdlineOpts) (fuel cfuel : Nat) :
    PluginState → List SoSCommand → PluginState
  | s, [] => s
  | s, c :: rest =>
    collectCmdOutputLoop runExt pathEx opts fuel cfuel
      (getCmdOutputNow runExt pathEx opts s c fuel cfuel).1 rest

/-- Phase two of `collect`. -/
def collectCmdOutput (runExt : ExecParams → CmdResult)
    (pathEx : String → Bool) (opts : CmdlineOpts) (fuel cfuel : Nat)
    (s : PluginState) : PluginState :=
  collectCmdOutputLoop runExt pathEx opts fuel cfuel s s.collect_cmds

/-- `Plugin._collect_strings`: the timeout flag is polled before each
string; each surviving string is archived under
`sos_strings/<plugin>/<name>` (write errors are caught and logged, so
the model is total). -/
def collectStringsLoop : PluginState → List (List Nat × String) → PluginState
  | s, [] => s
  | s, (content, fname) :: rest =>
    if s.timeout_hit then s
    else collectStringsLoop
      { s with archive := s.archive
          ++ [ArchiveEntry.str content
                (joinPath2 (joinPath2 "sos_strings" s.plugName) fname)] } rest

/-- Phase three of `collect`. -/
def collectStrings (s : PluginState) : PluginState :=
  collectStringsLoop s s.copy_strings

/-- `Plugin.collect()`: paths, then commands, then strings; the only
uncaught exception path is an `OSError` re-raised from `_copy_dir`. -/
def collect (fs : FS) (runExt : ExecParams → CmdResult)
    (pathEx : String → Bool) (opts : CmdlineOpts) (fuel cfuel : Nat)
    (s : PluginState) : Except Nat PluginState :=
  match collectCopySpecs fs fuel s with
  | Except.error e => Except.error e
  | Except.ok s1 =>
    Except.ok (collectStrings (collectCmdOutput runExt pathEx opts fuel cfuel s1))

/-! ## Concrete fixtures used by witnesses and counterexamples -/

/-- The default plugin predicate installed by `Plugin.__init__`
(`SoSPredicate(self)`): the null predicate. -/
def nullPred : SoSPred :=
  { dry_run := false, kmods := [], services := [] }

/-- A host with no modules loaded and no services running. -/
def hostW : Host := {}

/-- Default command-line options. -/
def optsW : CmdlineOpts := {}

/-- An empty filesystem oracle. -/
def fsEmpty : FS := {}

/-- A subprocess oracle whose commands all succeed. -/
def runExtW : ExecParams → CmdResult := fun _ => { status := 0, output := [] }

/-- An `os.path.exists` oracle with no collisions. -/
def pathExW : String → Bool := fun _ => false

/-- A plugin that registered the forbidden path `/etc/secret`. -/
def c9state : PluginState := { forbidden_paths := ["/etc/secret"] }

/-- A plugin with a forbidden path and the default null predicate. -/
def c1state : PluginState :=
  { forbidden_paths := ["/var/priv"], predicate := some nullPred }

/-- A plugin whose timeout flag was set with collection work still
queued in every phase. -/
def c2state : PluginState :=
  { timeout_hit := true, copy_paths := ["/etc/hosts"],
    copy_strings := [([1], "note.txt")], collect_cmds := [{ cmd := "ls" }],
    predicate := some nullPred }

/-- Three 10MB log files; the glob returns them out of order, the
mtimes make `m1` the newest. -/
def fs3 : FS :=
  { glob := fun p => if p = "/var/log/m*.log" then
        ["/var/log/m2.log", "/var/log/m3.log", "/var/log/m1.log"]
      else [],
    getmtime := fun p =>
      if p = "/var/log/m1.log" then some 30
      else if p = "/var/log/m2.log" then some 20
      else if p = "/var/log/m3.log" then some 10
      else none,
    statSize := fun p =>
      if p = "/var/log/m1.log" ∨ p = "/var/log/m2.log"
          ∨ p = "/var/log/m3.log" then some 10485760
      else none }

/-- The plugin state for the size-budget scenario. -/
def s3 : PluginState := { predicate := some nullPred }

/-- Two log files: the newest almost fills a 15MB budget, the second
overflows it and carries 3 bytes of content. -/
def fs4 : FS :=
  { glob := fun p => if p = "/var/log/n*.log" then
        ["/var/log/n1.log", "/var/log/n2.log"]
      else [],
    getmtime := fun p =>
      if p = "/var/log/n1.log" then some 20
      else if p = "/var/log/n2.log" then some 10
      else none,
    statSize := fun p =>
      if p = "/var/log/n1.log" then some 15728639
      else if p = "/var/log/n2.log" then some 100
      else none,
    content := fun p => if p = "/var/log/n2.log" then [9, 9, 9] else [] }

/-- The plugin state for the tail-fallback scenario. -/
def s4 : PluginState := { predicate := some nullPred, plugName := "logs" }

/-- A subprocess oracle: chrooted executions report `126`, host-root
executions fail with status 1. -/
def runExt5 : ExecParams → CmdResult := fun p =>
  if p.chroot = some "/host" then { status := 126, output := [] }
  else { status := 1, output := [7] }

/-- A regex oracle: substitution in the output of `foo -a` makes 2
replacements, in any other 3. -/
def sub6 : ExecRecord → Option (List Nat × Nat) := fun e =>
  if e.exe = "foo -a" then some ([1], 2) else some ([2], 3)

/-- A plugin that executed two matching `foo` commands. -/
def s6 : PluginState :=
  { executed_commands :=
      [{ exe := "foo -a", file := some "f1", binary := false },
       { exe := "foo -b", file := some "f2", binary := false }] }

/-- A subprocess oracle reporting `127` (command not found) for every
execution. -/
def run7 : ExecParams → CmdResult := fun _ => { status := 127, output := [] }

/-- A plugin about to run a command that will not be found. -/
def s7 : PluginState := { plugName := "mypl" }

/-- The queued command for the command-not-found scenario. -/
def c7cmd : SoSCommand := { cmd := "mycmd -a" }

/-- A plugin with the default null predicate and nothing queued. -/
def s10 : PluginState := { predicate := some nullPred }

/-! ## Helper lemmas -/

/-- `startsWithChars l n` succeeds exactly when `n` heads `l`. -/
theorem startsWithChars_iff :
    ∀ (l n : List Char), startsWithChars l n = true ↔ ∃ post, l = n ++ post := by
  intro l n
  induction n generalizing l with
  | nil => simp [startsWithChars]
  | cons b bs ih =>
    cases l with
    | nil => simp [startsWithChars]
    | cons a as =>
      simp only [startsWithChars, List.cons_append, List.cons.injEq]
      by_cases h : a = b
      · simp [h, ih]
      · simp [h]

/-- `containsChars hay n` succeeds exactly when `n` occurs contiguously
inside `hay`. -/
theorem containsChars_iff :
    ∀ (hay n : List Char),
      containsChars hay n = true ↔ ∃ pre post, hay = pre ++ n ++ post := by
  intro hay n
  induction hay with
  | nil =>
    simp only [containsChars, List.isEmpty_iff]
    constructor
    · rintro rfl; exact ⟨[], [], rfl⟩
    · rintro ⟨pre, post, h⟩
      rcases List.append_eq_nil.mp h.symm with ⟨h1, -⟩
      exact (List.append_eq_nil.mp h1).2
  | cons c rest ih =>
    simp only [containsChars, Bool.or_eq_true, startsWithChars_iff, ih]
    constructor
    · rintro (⟨post, h⟩ | ⟨pre, post, h⟩)
      · exact ⟨[], post, by simpa using h⟩
      · exact ⟨c :: pre, post, by simp [h]⟩
    · rintro ⟨pre, post, h⟩
      cases pre with
      | nil => exact Or.inl ⟨post, by simpa using h⟩
      | cons x xs =>
        rw [List.cons_append, List.cons_append] at h
        injection h with h1 h2
        exact Or.inr ⟨xs, post, h2⟩

/-- Folding `or` over a list equals the seed or'ed with `any`. -/
theorem foldl_or_any {α : Type} (f : α → Bool) :
    ∀ (l : List α) (b : Bool),
      l.foldl (fun acc x => acc || f x) b = (b || l.any f) := by
  intro l
  induction l with
  | nil => intro b; simp
  | cons x xs ih =>
    intro b
    rw [List.foldl_cons, ih (b || f x), List.any_cons, Bool.or_assoc]

/-! ## Claims -/

/-- Claim C8: a `SoSPredicate` evaluates to `true` for the null
predicate (no kernel modules, no services, `dry_run` false); otherwise
it is the OR of the module-loaded checks and the service-running
checks, ANDed with the negation of `dry_run`. -/
theorem c8_predicate_evaluation (h : Host) (p : SoSPred) :
    sosPredNonzero h p =
      if p.kmods = [] ∧ p.services = [] ∧ p.dry_run = false then true
      else (p.kmods.any h.moduleLoaded || p.services.any h.serviceRunning)
        && !p.dry_run := by
  obtain ⟨d, k, sv⟩ := p
  simp only [sosPredNonzero, foldl_or_any, Bool.false_or]
  cases k <;> cases sv <;> cases d <;> simp [foldl_or_any, Bool.or_assoc]

/-- Claim C9: a path is classified forbidden iff some registered
forbidden path occurs as a contiguous substring of the (sysroot-joined)
path — in particular a mere sibling such as `/etc/secretX` of the
forbidden `/etc/secret` is also forbidden. -/
theorem c9_forbidden_is_substring_match :
    (∀ (s : PluginState) (path : String),
      isForbiddenPath s path = true ↔
        ∃ p ∈ s.forbidden_paths, ∃ pre post : List Char,
          (if useSysroot s then joinSysroot s path else path).toList
            = pre ++ p.toList ++ post)
    ∧ isForbiddenPath c9state "/etc/secretX" = true := by
  constructor
  · intro s path
    simp only [isForbiddenPath, pathInPathList, List.any_eq_true, strInStr]
    constructor
    · rintro ⟨p, hp, hc⟩
      exact ⟨p, hp, (containsChars_iff _ _).mp hc⟩
    · rintro ⟨p, hp, hc⟩
      exact ⟨p, hp, (containsChars_iff _ _).mpr hc⟩
  · decide

/-- An empty element of the copyspec list returns `False` immediately,
keeping the state built from the earlier elements. -/
theorem addCopySpecLoop_empty_elem (fs : FS) (h : Host) (sl : Option Nat)
    (tailit : Bool) (post : List String) :
    ∀ (pre : List String) (s : PluginState), (∀ x ∈ pre, x ≠ "") →
      addCopySpecLoop fs h sl tailit s (pre ++ "" :: post)
        = ((addCopySpecLoop fs h sl tailit s pre).1, some false) := by
  intro pre
  induction pre with
  | nil => intro s _; simp [addCopySpecLoop]
  | cons a rest ih =>
    intro s hx
    have ha : a ≠ "" := hx a (List.mem_cons_self a rest)
    simp only [List.cons_append, addCopySpecLoop, if_neg ha]
    exact ih _ (fun x hm => hx x (List.mem_cons_of_mem a hm))

/-- Claim C10: `add_copy_spec` returns `False` for an empty copyspec
list, and an empty element makes it return `False` at that element,
abandoning the rest of the list while keeping everything already added
for the earlier elements. -/
theorem c10_empty_copyspec_returns_false (fs : FS) (h : Host)
    (opts : CmdlineOpts) (s : PluginState) (pre post : List String)
    (sl : Option Nat) (tailit : Bool) (pred : Option SoSPred)
    (hpred : testPredicate h s false pred = true)
    (hpre : ∀ x ∈ pre, x ≠ "") :
    addCopySpec fs h opts s [] sl tailit pred = (s, some false)
    ∧ addCopySpec fs h opts s (pre ++ "" :: post) sl tailit pred
        = ((addCopySpec fs h opts s pre sl tailit pred).1, some false) := by
  constructor
  · simp [addCopySpec, hpred]
  · cases pre with
    | nil =>
      simp [addCopySpec, hpred, addCopySpecLoop]
    | cons a rest =>
      simp only [addCopySpec, hpred, not_true, if_false, List.cons_append,
        List.isEmpty_cons, Bool.false_eq_true]
      exact addCopySpecLoop_empty_elem fs h _ tailit post (a :: rest) s hpre

/-- Witness for claim C10: concrete spec lists with an empty element. -/
theorem c10_witness :
    testPredicate hostW s10 false none = true
    ∧ (∀ x ∈ ["/etc/a"], x ≠ "")
    ∧ addCopySpec fsEmpty hostW optsW s10 [] (some 1) true none
        = (s10, some false)
    ∧ addCopySpec fsEmpty hostW optsW s10 (["/etc/a"] ++ "" :: ["/etc/b"])
          (some 1) true none
        = ((addCopySpec fsEmpty hostW optsW s10 ["/etc/a"] (some 1) true
            none).1, some false) := by
  refine ⟨by decide, by decide, ?_, ?_⟩
  · exact (c10_empty_copyspec_returns_false fsEmpty hostW optsW s10 ["/etc/a"]
      ["/etc/b"] (some 1) true none (by decide) (by decide)).1
  · exact (c10_empty_copyspec_returns_false fsEmpty hostW optsW s10 ["/etc/a"]
      ["/etc/b"] (some 1) true none (by decide) (by decide)).2

/-- Claim C3: the copy-spec loop accumulates newest-first while
tracking the running byte total and stops the moment the total exceeds
the budget; with three 10MB files and a 15MB budget exactly the newest
file is added, the second becomes the tail/drop candidate and the third
is never examined. -/
theorem c3_size_budget_monotonic :
    (∀ (fs : FS) (sl : Option Nat) (s : PluginState) (f : String)
        (rest : List String) (cur : Nat) (last : Option String),
      isForbiddenPath s f = false →
      overLimit sl (cur + (fs.statSize f).getD 0) = true →
      copySpecLoop fs sl s (f :: rest) cur last
        = ⟨s, cur + (fs.statSize f).getD 0, true, some f, [f]⟩)
    ∧ sortByMtimeDesc fs3 (fs3.glob "/var/log/m*.log")
        = ["/var/log/m1.log", "/var/log/m2.log", "/var/log/m3.log"]
    ∧ copySpecLoop fs3 (some 15728640) s3
        ["/var/log/m1.log", "/var/log/m2.log", "/var/log/m3.log"] 0 none
        = ⟨{ s3 with copy_paths := ["/var/log/m1.log"] }, 20971520, true,
            some "/var/log/m2.log", ["/var/log/m1.log", "/var/log/m2.log"]⟩
    ∧ addCopySpec fs3 hostW optsW s3 ["/var/log/m*.log"] (some 15) false none
        = ({ s3 with copy_paths := ["/var/log/m1.log"] }, none) := by
  refine ⟨?_, by decide, by decide, by decide⟩
  intro fs sl s f rest cur last hforb hover
  simp [copySpecLoop, hforb, hover]

/-- Witness for claim C3: the stop-at-overflow conjunct at the concrete
second file of the 15MB scenario. -/
theorem c3_witness :
    isForbiddenPath s3 "/var/log/m2.log" = false
    ∧ overLimit (some 15728640)
        (10485760 + ((fs3.statSize "/var/log/m2.log").getD 0)) = true
    ∧ copySpecLoop fs3 (some 15728640) s3 ["/var/log/m2.log", "/var/log/m3.log"]
          10485760 (some "/var/log/m1.log")
        = ⟨s3, 20971520, true, some "/var/log/m2.log", ["/var/log/m2.log"]⟩ := by
  refine ⟨by decide, by decide, ?_⟩
  exact c3_size_budget_monotonic.1 fs3 (some 15728640) s3 "/var/log/m2.log"
    ["/var/log/m3.log"] 10485760 (some "/var/log/m1.log") (by decide) (by decide)

/-- Counterexample to claim C4 as stated: in the concrete overflow
scenario the archived tail artifact holds 3 bytes (the whole file, since
the source passes the full `sizelimit` to `tail`), which exceeds the
remaining budget of `15728640 - 15728639 = 1` byte left after the
earlier file of the same glob. -/
theorem c4_counterexample :
    (processOneSpec fs4 hostW s4 (some 15728640) true "/var/log/n*.log").copy_strings
      = [(tailUtil (fs4.content "/var/log/n2.log") 15728640,
          tailedName "/var/log/n2.log")]
    ∧ tailUtil (fs4.content "/var/log/n2.log") 15728640 = [9, 9, 9]
    ∧ ¬ (tailUtil (fs4.content "/var/log/n2.log") 15728640).length
          ≤ 15728640 - ((fs4.statSize "/var/log/n1.log").getD 0) := by
  refine ⟨by decide, by decide, by decide⟩

/-- Claim C4 (amended): when the size limit is hit with `tailit`
enabled and the last examined file is not compressed, the archived tail
artifact holds the file's final bytes up to the **full** size limit
passed to the call (not the remaining budget), and a relative symlink is
added from the original logical location to the `<mangled>.tailed`
string artifact. -/
theorem c4_amended_tail_uses_full_limit (fs : FS) (h : Host)
    (s : PluginState) (sl : Option Nat) (spec0 f : String)
    (hlim : (copySpecLoop fs sl s
        (sortByMtimeDesc fs (fs.glob (specPath s spec0))) 0 none).limitReached
        = true)
    (hlast : (copySpecLoop fs sl s
        (sortByMtimeDesc fs (fs.glob (specPath s spec0))) 0 none).lastFile
        = some f)
    (hcomp : fileIsCompressed f = false)
    (hpred : testPredicate h (copySpecLoop fs sl s
        (sortByMtimeDesc fs (fs.glob (specPath s spec0))) 0 none).state
        false none = true) :
    processOneSpec fs h s sl true spec0
      = { (copySpecLoop fs sl s
            (sortByMtimeDesc fs (fs.glob (specPath s spec0))) 0 none).state with
          copy_strings :=
            (copySpecLoop fs sl s
              (sortByMtimeDesc fs (fs.glob (specPath s spec0))) 0 none).state.copy_strings
            ++ [(tailUtil (fs.content f) (sl.getD 0), tailedName f)],
          archive :=
            (copySpecLoop fs sl s
              (sortByMtimeDesc fs (fs.glob (specPath s spec0))) 0 none).state.archive
            ++ [ArchiveEntry.link
                  (tailedLinkPath (copySpecLoop fs sl s
                    (sortByMtimeDesc fs (fs.glob (specPath s spec0))) 0
                    none).state.plugName f) f] } := by
  have hne : (fs.glob (specPath s spec0)).isEmpty = false := by
    cases hg : fs.glob (specPath s spec0) with
    | nil =>
      rw [hg] at hlim
      simp [sortByMtimeDesc, copySpecLoop] at hlim
    | cons a l => rfl
  simp only [processOneSpec, hne, Bool.false_eq_true, if_false, hlim, hlast,
    Bool.true_and, if_true, hcomp, Bool.not_false, addStringAsFile, hpred,
    not_true, Bool.false_eq_true]
  simp [hcomp]

/-- Witness for the amended claim C4: the concrete overflow scenario. -/
theorem c4_witness :
    (copySpecLoop fs4 (some 15728640) s4
        (sortByMtimeDesc fs4 (fs4.glob (specPath s4 "/var/log/n*.log"))) 0
        none).limitReached = true
    ∧ processOneSpec fs4 hostW s4 (some 15728640) true "/var/log/n*.log"
      = { (copySpecLoop fs4 (some 15728640) s4
            (sortByMtimeDesc fs4 (fs4.glob (specPath s4 "/var/log/n*.log"))) 0
            none).state with
          copy_strings :=
            (copySpecLoop fs4 (some 15728640) s4
              (sortByMtimeDesc fs4 (fs4.glob (specPath s4 "/var/log/n*.log"))) 0
              none).state.copy_strings
            ++ [(tailUtil (fs4.content "/var/log/n2.log") ((some 15728640 : Option Nat).getD 0),
                 tailedName "/var/log/n2.log")],
          archive :=
            (copySpecLoop fs4 (some 15728640) s4
              (sortByMtimeDesc fs4 (fs4.glob (specPath s4 "/var/log/n*.log"))) 0
              none).state.archive
            ++ [ArchiveEntry.link
                  (tailedLinkPath (copySpecLoop fs4 (some 15728640) s4
                    (sortByMtimeDesc fs4 (fs4.glob (specPath s4 "/var/log/n*.log"))) 0
                    none).state.plugName "/var/log/n2.log") "/var/log/n2.log"] } := by
  refine ⟨by decide, ?_⟩
  exact c4_amended_tail_uses_full_limit fs4 hostW s4 (some 15728640)
    "/var/log/n*.log" "/var/log/n2.log" (by decide) (by decide) (by decide)
    (by decide)

/-- `_do_copy_path` is a complete no-op — state untouched, no `lstat`
performed — when the timeout flag is set or the path is forbidden, at
any recursion depth. -/
theorem doCopyPath_noop (fs : FS) (fuel : Nat) (s : PluginState) (p : String)
    (d : Option String)
    (h : s.timeout_hit = true ∨ isForbiddenPath s p = true) :
    doCopyPath fs fuel s p d = Except.ok (s, []) := by
  cases fuel with
  | zero => rw [doCopyPath.eq_def]
  | succ n =>
    rw [doCopyPath.eq_def]
    rcases h with ht | hf
    · simp [ht]
    · cases hT : s.timeout_hit <;> simp [hT, hf]

/-- Membership in the one-element `set.update` model. -/
theorem mem_addCopyPathsOne {ps : List String} {f g : String}
    (h : g ∈ addCopyPathsOne ps f) : g ∈ ps ∨ g = f := by
  unfold addCopyPathsOne at h
  split at h
  · exact Or.inl h
  · rcases List.mem_append.mp h with h1 | h1
    · exact Or.inl h1
    · exact Or.inr (List.mem_singleton.mp h1)

/-- A forbidden path is never examined (`os.stat`-ed) by the
`add_copy_spec` loop and never enters the CopyPathSet. -/
theorem copySpecLoop_forbidden (fs : FS) (sl : Option Nat) (g : String) :
    ∀ (files : List String) (s : PluginState) (cur : Nat) (last : Option String),
      isForbiddenPath s g = true →
      g ∉ (copySpecLoop fs sl s files cur last).examined
      ∧ ((g ∈ (copySpecLoop fs sl s files cur last).state.copy_paths) →
          g ∈ s.copy_paths) := by
  intro files
  induction files with
  | nil => intro s cur last hg; simp [copySpecLoop]
  | cons f rest ih =>
    intro s cur last hg
    by_cases hf : isForbiddenPath s f = true
    · simp only [copySpecLoop, if_pos hf]
      exact ih s cur (some f) hg
    · have hff : isForbiddenPath s f = false := by simpa using hf
      have hgf : g ≠ f := by
        intro he; rw [he] at hg; rw [hg] at hff; exact Bool.true_eq_false.mp hff
      simp only [copySpecLoop, hff, Bool.false_eq_true, if_false]
      by_cases hov : overLimit sl (cur + (fs.statSize f).getD 0) = true
      · simp only [hov, if_true]
        refine ⟨?_, fun hmem => hmem⟩
        simp [hgf]
      · have hovf : overLimit sl (cur + (fs.statSize f).getD 0) = false := by
          simpa using hov
        simp only [hovf, Bool.false_eq_true, if_false]
        have hrec := ih { s with copy_paths := addCopyPathsOne s.copy_paths f }
          (cur + (fs.statSize f).getD 0) (some f) hg
        refine ⟨?_, ?_⟩
        · intro hmem
          rcases List.mem_cons.mp hmem with he | hm
          · exact hgf he
          · exact hrec.1 hm
        · intro hmem
          rcases mem_addCopyPathsOne (hrec.2 hmem) with h1 | h1
          · exact h1
          · exact absurd h1 hgf

/-- Claim C1: for a path classified forbidden, `_do_copy_path` returns
before any `lstat` with no CopiedFileRecord and no archive entry, and
the `add_copy_spec` expansion loop neither examines the path nor adds
it to the CopyPathSet. -/
theorem c1_forbidden_path_invariant (fs : FS) (fuel : Nat) (s : PluginState)
    (p : String) (d : Option String) (sl : Option Nat) (files : List String)
    (cur : Nat) (last : Option String)
    (hf : isForbiddenPath s p = true) :
    doCopyPath fs fuel s p d = Except.ok (s, [])
    ∧ p ∉ (copySpecLoop fs sl s files cur last).examined
    ∧ ((p ∈ (copySpecLoop fs sl s files cur last).state.copy_paths) →
        p ∈ s.copy_paths) := by
  refine ⟨doCopyPath_noop fs fuel s p d (Or.inr hf), ?_, ?_⟩
  · exact (copySpecLoop_forbidden fs sl p files s cur last hf).1
  · exact (copySpecLoop_forbidden fs sl p files s cur last hf).2

/-- Witness for claim C1: a concrete forbidden path. -/
theorem c1_witness :
    isForbiddenPath c1state "/var/priv/key" = true
    ∧ (doCopyPath fsEmpty 3 c1state "/var/priv/key" none
          = Except.ok (c1state, [])
      ∧ "/var/priv/key" ∉ (copySpecLoop fsEmpty (some 100) c1state
          ["/var/priv/key", "/var/log/ok"] 0 none).examined
      ∧ (("/var/priv/key" ∈ (copySpecLoop fsEmpty (some 100) c1state
          ["/var/priv/key", "/var/log/ok"] 0 none).state.copy_paths) →
          "/var/priv/key" ∈ c1state.copy_paths)) :=
  ⟨by decide, c1_forbidden_path_invariant fsEmpty 3 c1state "/var/priv/key"
    none (some 100) ["/var/priv/key", "/var/log/ok"] 0 none (by decide)⟩

/-- Phase one is a no-op under the timeout flag. -/
theorem collectCopySpecsLoop_timeout (fs : FS) (fuel : Nat) :
    ∀ (l : List String) (s : PluginState), s.timeout_hit = true →
      collectCopySpecsLoop fs fuel s l = Except.ok s := by
  intro l
  induction l with
  | nil => intro s _; rfl
  | cons p rest ih =>
    intro s ht
    simp only [collectCopySpecsLoop,
      doCopyPath_noop fs fuel s p none (Or.inl ht)]
    exact ih s ht

/-- `_get_cmd_output_now` is a no-op under the timeout flag. -/
theorem getCmdOutputNow_timeout (runExt : ExecParams → CmdResult)
    (pathEx : String → Bool) (opts : CmdlineOpts) (s : PluginState)
    (c : SoSCommand) (fuel cfuel : Nat) (ht : s.timeout_hit = true) :
    getCmdOutputNow runExt pathEx opts s c fuel cfuel = (s, none) := by
  simp [getCmdOutputNow, ht]

/-- Phase two is a no-op under the timeout flag. -/
theorem collectCmdOutputLoop_timeout (runExt : ExecParams → CmdResult)
    (pathEx : String → Bool) (opts : CmdlineOpts) (fuel cfuel : Nat) :
    ∀ (l : List SoSCommand) (s : PluginState), s.timeout_hit = true →
      collectCmdOutputLoop runExt pathEx opts fuel cfuel s l = s := by
  intro l
  induction l with
  | nil => intro s _; rfl
  | cons c rest ih =>
    intro s ht
    simp only [collectCmdOutputLoop,
      getCmdOutputNow_timeout runExt pathEx opts s c fuel cfuel ht]
    exact ih s ht

/-- Phase three is a no-op under the timeout flag. -/
theorem collectStringsLoop_timeout :
    ∀ (l : List (List Nat × String)) (s : PluginState), s.timeout_hit = true →
      collectStringsLoop s l = s := by
  intro l s ht
  cases l with
  | nil => rfl
  | cons x rest =>
    obtain ⟨content, fname⟩ := x
    simp [collectStringsLoop, ht]

/-- Claim C2: once the timeout flag is set, `_do_copy_path` appends no
CopiedFileRecord, `_get_cmd_output_now` appends no
ExecutedCommandRecord, `_collect_strings` writes no string artifact,
and `collect()` returns normally with the state untouched. -/
theorem c2_timeout_truncation (fs : FS) (runExt : ExecParams → CmdResult)
    (pathEx : String → Bool) (opts : CmdlineOpts) (s : PluginState)
    (p : String) (d : Option String) (c : SoSCommand) (fuel cfuel : Nat)
    (ht : s.timeout_hit = true) :
    doCopyPath fs fuel s p d = Except.ok (s, [])
    ∧ getCmdOutputNow runExt pathEx opts s c fuel cfuel = (s, none)
    ∧ collectStrings s = s
    ∧ collect fs runExt pathEx opts fuel cfuel s = Except.ok s := by
  refine ⟨doCopyPath_noop fs fuel s p d (Or.inl ht),
    getCmdOutputNow_timeout runExt pathEx opts s c fuel cfuel ht, ?_, ?_⟩
  · exact collectStringsLoop_timeout s.copy_strings s ht
  · unfold collect collectCopySpecs
    rw [collectCopySpecsLoop_timeout fs fuel s.copy_paths s ht]
    show Except.ok (collectStrings (collectCmdOutput runExt pathEx opts fuel
      cfuel s)) = Except.ok s
    unfold collectCmdOutput collectStrings
    rw [collectCmdOutputLoop_timeout runExt pathEx opts fuel cfuel
      s.collect_cmds s ht]
    rw [collectStringsLoop_timeout s.copy_strings s ht]

/-- Witness for claim C2: a concrete timed-out plugin with work queued
in every phase. -/
theorem c2_witness :
    c2state.timeout_hit = true
    ∧ (doCopyPath fsEmpty 4 c2state "/etc/hosts" none
          = Except.ok (c2state, [])
      ∧ getCmdOutputNow runExtW pathExW optsW c2state { cmd := "ls" } 4 4
          = (c2state, none)
      ∧ collectStrings c2state = c2state
      ∧ collect fsEmpty runExtW pathExW optsW 4 4 c2state
          = Except.ok c2state) :=
  ⟨by decide, c2_timeout_truncation fsEmpty runExtW pathExW optsW c2state
    "/etc/hosts" none { cmd := "ls" } 4 4 (by decide)⟩

/-- Claim C5: a command returning exit status 126/127 under a truthy
non-root chroot, when chroot is not globally forced to `always`,
triggers exactly one retry without chroot (the retry resolves no root,
so it can never retry again), and the caller receives the retry's
result whatever its status; the trace records exactly the two
executions. -/
theorem c5_chroot_fallback (runExt : ExecParams → CmdResult)
    (opts : CmdlineOpts) (sysroot : String) (n : Nat) (a : GCOArgs)
    (hchroot : a.chroot = true) (hop : ¬ opts.chroot = "always")
    (hr1 : sysroot ≠ "") (hr2 : sysroot ≠ "/")
    (hst : (runExt (mkExecParams a.prog a.timeout a.stderr (some sysroot)
        a.runat a.env a.binary a.sizelimit)).status = 126
      ∨ (runExt (mkExecParams a.prog a.timeout a.stderr (some sysroot)
        a.runat a.env a.binary a.sizelimit)).status = 127) :
    getCommandOutput runExt opts sysroot false (n + 2) a
      = (some (runExt (mkExecParams a.prog a.timeout true none a.runat a.env
            a.binary none)),
         [mkExecParams a.prog a.timeout a.stderr (some sysroot) a.runat a.env
            a.binary a.sizelimit,
          mkExecParams a.prog a.timeout true none a.runat a.env a.binary
            none]) := by
  rcases hst with h | h <;>
    simp [getCommandOutput, hchroot, h, hop, hr1, hr2, rootTruthyNotSlash]

/-- Witness for claim C5: a concrete chrooted 126 with a failing
host-root retry whose status is reported to the caller. -/
theorem c5_witness :
    (¬ (optsW.chroot = "always"))
    ∧ (runExt5 (mkExecParams "mycmd" 300 true (some "/host") none none false
        none)).status = 126
    ∧ getCommandOutput runExt5 optsW "/host" false 2 { prog := "mycmd" }
        = (some (runExt5 (mkExecParams "mycmd" 300 true none none none false
              none)),
           [mkExecParams "mycmd" 300 true (some "/host") none none false none,
            mkExecParams "mycmd" 300 true none none none false none]) := by
  refine ⟨by decide, by decide, ?_⟩
  exact c5_chroot_fallback runExt5 optsW "/host" 0 { prog := "mycmd" } rfl
    (by decide) (by decide) (by decide) (Or.inl (by decide))

/-- When no matching entry raises, the substitution loop returns the
count of the last matching entry (fold of last-match-wins over the
starting value). -/
theorem doCmdOutputSubLoop_last (subnOf : ExecRecord → Option (List Nat × Nat))
    (cmddir globstr : String) :
    ∀ (l : List ExecRecord) (ar : List ArchiveEntry) (repl : Option Nat),
      (∀ e ∈ l, e.file.isSome = true → e.binary = false →
        globMatchStr globstr e.exe = true → (subnOf e).isSome = true) →
      (doCmdOutputSubLoop subnOf cmddir globstr l ar repl).2
        = l.foldl (fun acc e =>
            if e.file.isSome && !e.binary && globMatchStr globstr e.exe then
              (subnOf e).map Prod.snd
            else acc) repl := by
  intro l
  induction l with
  | nil => intro ar repl _; rfl
  | cons e rest ih =>
    intro ar repl hall
    have hrest : ∀ x ∈ rest, x.file.isSome = true → x.binary = false →
        globMatchStr globstr x.exe = true → (subnOf x).isSome = true :=
      fun x hx => hall x (List.mem_cons_of_mem e hx)
    rw [List.foldl_cons]
    cases hfe : e.file with
    | none =>
      simp only [doCmdOutputSubLoop, hfe, Option.isSome_none, Bool.false_and,
        Bool.false_eq_true, if_false]
      exact ih ar repl hrest
    | some f =>
      cases hbin : e.binary with
      | true =>
        simp only [doCmdOutputSubLoop, hfe, hbin, if_true, Bool.not_true,
          Bool.and_false, Bool.false_and, Bool.false_eq_true, if_false]
        exact ih ar repl hrest
      | false =>
        cases hm : globMatchStr globstr e.exe with
        | false =>
          simp only [doCmdOutputSubLoop, hfe, hbin, hm, Bool.and_false,
            Bool.false_eq_true, if_false]
          exact ih ar repl hrest
        | true =>
          obtain ⟨pr, hpr⟩ := Option.isSome_iff_exists.mp
            (hall e (List.mem_cons_self e rest)
              (by rw [hfe]; rfl) hbin hm)
          simp only [doCmdOutputSubLoop, hfe, hbin, hm, hpr, Option.isSome_some,
            Bool.not_false, Bool.and_true, Bool.true_and, Option.map_some,
            if_true, Bool.false_eq_true, if_false]
          exact ih _ (some pr.2) hrest

/-- If some matching entry raises, the whole substitution call is
aborted with the `None` sentinel. -/
theorem doCmdOutputSubLoop_err (subnOf : ExecRecord → Option (List Nat × Nat))
    (cmddir globstr : String) :
    ∀ (l : List ExecRecord) (ar : List ArchiveEntry) (repl : Option Nat),
      (∃ e ∈ l, e.file.isSome = true ∧ e.binary = false ∧
        globMatchStr globstr e.exe = true ∧ subnOf e = none) →
      (doCmdOutputSubLoop subnOf cmddir globstr l ar repl).2 = none := by
  intro l
  induction l with
  | nil => rintro ar repl ⟨e, he, -⟩; exact absurd he (List.not_mem_nil e)
  | cons e rest ih =>
    rintro ar repl ⟨x, hx, hxf, hxb, hxm, hxn⟩
    rcases List.mem_cons.mp hx with rfl | hxr
    · obtain ⟨f, hf⟩ := Option.isSome_iff_exists.mp hxf
      simp [doCmdOutputSubLoop, hf, hxb, hxm, hxn]
    · cases hfe : e.file with
      | none =>
        simp only [doCmdOutputSubLoop, hfe]
        exact ih ar repl ⟨x, hxr, hxf, hxb, hxm, hxn⟩
      | some f =>
        cases hbin : e.binary with
        | true =>
          simp only [doCmdOutputSubLoop, hfe, hbin, if_true]
          exact ih ar repl ⟨x, hxr, hxf, hxb, hxm, hxn⟩
        | false =>
          cases hm : globMatchStr globstr e.exe with
          | false =>
            simp only [doCmdOutputSubLoop, hfe, hbin, hm, Bool.false_eq_true,
              if_false]
            exact ih ar repl ⟨x, hxr, hxf, hxb, hxm, hxn⟩
          | true =>
            cases hsub : subnOf e with
            | none => simp [doCmdOutputSubLoop, hfe, hbin, hm, hsub]
            | some pr =>
              simp only [doCmdOutputSubLoop, hfe, hbin, hm, hsub, if_true,
                Bool.false_eq_true, if_false]
              exact ih _ (some pr.2) ⟨x, hxr, hxf, hxb, hxm, hxn⟩

/-- Counterexample to claim C6 as stated: with two matching entries
whose substitutions make 2 and 3 replacements, `do_cmd_output_sub`
returns 3 (the count of the last matching entry), not the total 5. -/
theorem c6_counterexample :
    (doCmdOutputSub s6 "foo" sub6).2 = some 3
    ∧ sumMatchedCounts sub6 (cmdGlobMatches "foo") s6.executed_commands
        = some 5
    ∧ (doCmdOutputSub s6 "foo" sub6).2
        ≠ sumMatchedCounts sub6 (cmdGlobMatches "foo") s6.executed_commands := by
  refine ⟨by decide, by decide, by decide⟩

/-- Claim C6 (amended): `do_cmd_output_sub` returns `0` for an empty
command ledger; it returns the `None` failure sentinel if processing
any matching entry raises, aborting the whole call; and when nothing
raises it returns the replacement count of the **last** matching entry
(`None` when a non-empty ledger has no matching entry), not the sum
over all matching entries. -/
theorem c6_amended_last_match_count (s : PluginState) (cmd : String)
    (subnOf : ExecRecord → Option (List Nat × Nat)) :
    (s.executed_commands = [] → (doCmdOutputSub s cmd subnOf).2 = some 0)
    ∧ ((∃ e ∈ s.executed_commands, cmdGlobMatches cmd e = true
          ∧ subnOf e = none) →
        (doCmdOutputSub s cmd subnOf).2 = none)
    ∧ ((∀ e ∈ s.executed_commands, cmdGlobMatches cmd e = true →
          (subnOf e).isSome = true) →
        (doCmdOutputSub s cmd subnOf).2
          = if s.executed_commands.isEmpty then some 0
            else s.executed_commands.foldl (fun acc e =>
              if cmdGlobMatches cmd e then (subnOf e).map Prod.snd else acc)
              none) := by
  refine ⟨?_, ?_, ?_⟩
  · intro hnil
    simp [doCmdOutputSub, hnil]
  · rintro ⟨e, he, hm, hn⟩
    have hcomp : e.file.isSome = true ∧ e.binary = false
        ∧ globMatchStr ("*" ++ cmd ++ "*") e.exe = true := by
      have := hm
      simp only [cmdGlobMatches, Bool.and_eq_true, Bool.not_eq_true'] at this
      exact ⟨this.1.1, this.1.2, this.2⟩
    have hne : s.executed_commands.isEmpty = false := by
      cases hl : s.executed_commands with
      | nil => rw [hl] at he; exact absurd he (List.not_mem_nil e)
      | cons a l => rfl
    simp only [doCmdOutputSub, hne, Bool.false_eq_true, if_false]
    exact doCmdOutputSubLoop_err subnOf s.cmddir ("*" ++ cmd ++ "*")
      s.executed_commands s.archive none
      ⟨e, he, hcomp.1, hcomp.2.1, hcomp.2.2, hn⟩
  · intro hall
    cases hl : s.executed_commands.isEmpty with
    | true =>
      have : s.executed_commands = [] := List.isEmpty_iff.mp hl
      simp [doCmdOutputSub, this]
    | false =>
      simp only [doCmdOutputSub, hl, Bool.false_eq_true, if_false, if_true]
      exact doCmdOutputSubLoop_last subnOf s.cmddir ("*" ++ cmd ++ "*")
        s.executed_commands s.archive none
        (fun e he h1 h2 h3 => hall e he (by
          simp only [cmdGlobMatches, Bool.and_eq_true, Bool.not_eq_true']
          exact ⟨⟨h1, h2⟩, h3⟩))

/-- Witness for the amended claim C6: the concrete two-entry ledger. -/
theorem c6_witness :
    (∀ e ∈ s6.executed_commands, cmdGlobMatches "foo" e = true →
      (sub6 e).isSome = true)
    ∧ (doCmdOutputSub s6 "foo" sub6).2
        = if s6.executed_commands.isEmpty then some 0
          else s6.executed_commands.foldl (fun acc e =>
            if cmdGlobMatches "foo" e then (sub6 e).map Prod.snd else acc)
            none :=
  ⟨by decide, (c6_amended_last_match_count s6 "foo" sub6).2.2 (by decide)⟩

/-- With at least two units of fuel and no timeout, `get_command_output`
always hands back a result (the retry never needs a second retry, since
its root resolves to `None`). -/
theorem rootTruthyNotSlash_none : rootTruthyNotSlash none = false := rfl

theorem getCommandOutput_fuel2_isSome (runExt : ExecParams → CmdResult)
    (opts : CmdlineOpts) (sysroot : String) (n : Nat) (a : GCOArgs) :
    ∃ r, (getCommandOutput runExt opts sysroot false (n + 2) a).1 = some r := by
  by_cases hop : opts.chroot = "always"
  · simp only [getCommandOutput, Bool.false_eq_true, if_false, hop, not_true,
      ite_self]
    exact ⟨_, rfl⟩
  · simp only [getCommandOutput, Bool.false_eq_true, if_false, hop,
      not_false_iff, if_true, decide_False, Bool.or_false, Bool.false_or,
      rootTruthyNotSlash_none, ite_self]
    split
    all_goals try split
    all_goals try split
    all_goals exact ⟨_, rfl⟩

/-- Counterexample to claim C7 as stated: a command-not-found execution
(status 127) still archives its (empty) output and appends an
ExecutedCommandRecord whose `file` field is non-null — the file field
is not `null` when the command is not found. -/
theorem c7_counterexample :
    ((getCommandOutput run7 optsW s7.sysroot s7.timeout_hit 2
        (gcoArgsOf c7cmd)).1.map (fun r => r.status)) = some 127
    ∧ (getCmdOutputNow run7 pathExW optsW s7 c7cmd 2 5).1.executed_commands
        = [{ exe := "mycmd -a", file := some "mypl/mycmd_-a",
             binary := false }]
    ∧ ((getCmdOutputNow run7 pathExW optsW s7 c7cmd 2 5).1.executed_commands.map
        (fun e => e.file)) ≠ [none]
    ∧ (getCmdOutputNow run7 pathExW optsW s7 c7cmd 2 5).1.archive
        = [ArchiveEntry.str [] "sos_commands/mypl/mycmd_-a"] := by
  refine ⟨by decide, by decide, by decide, by decide⟩

/-- Claim C7 (amended): every command invocation not skipped by the
timeout flag appends exactly one ExecutedCommandRecord, whose `file`
field is always non-null (even when the command is not found), and its
output — possibly empty — is always archived (binary or text), plus an
optional root symlink; a skipped invocation appends no record at all,
so a record with a non-null file always corresponds to archived
output. -/
theorem c7_amended_record_always_has_file (runExt : ExecParams → CmdResult)
    (pathEx : String → Bool) (opts : CmdlineOpts) (s : PluginState)
    (c : SoSCommand) (n cfuel : Nat) (ht : s.timeout_hit = false) :
    (getCmdOutputNow runExt pathEx opts s c (n + 2) cfuel).1.executed_commands
      = s.executed_commands
        ++ [{ exe := c.cmd,
              file := some ((makeCommandFilename pathEx s.cmddir s.plugName
                s.nameMax (effectiveExe c) c.subdir cfuel).drop
                (s.cmddir.length + 1)),
              binary := c.binary }]
    ∧ ∃ out : List Nat,
        (getCmdOutputNow runExt pathEx opts s c (n + 2) cfuel).1.archive
          = (s.archive
              ++ [if c.binary then
                    ArchiveEntry.bin out (makeCommandFilename pathEx s.cmddir
                      s.plugName s.nameMax (effectiveExe c) c.subdir cfuel)
                  else
                    ArchiveEntry.str out (makeCommandFilename pathEx s.cmddir
                      s.plugName s.nameMax (effectiveExe c) c.subdir cfuel)])
            ++ (match c.root_symlink with
                | some rs =>
                  if rs = "" then []
                  else [ArchiveEntry.link (makeCommandFilename pathEx s.cmddir
                    s.plugName s.nameMax (effectiveExe c) c.subdir cfuel) rs]
                | none => []) := by
  obtain ⟨r, hr⟩ := getCommandOutput_fuel2_isSome runExt opts s.sysroot n
    (gcoArgsOf c)
  unfold getCmdOutputNow
  rw [ht, hr]
  simp only [Bool.false_eq_true, if_false]
  refine ⟨by simp, r.output, ?_⟩
  cases hrs : c.root_symlink with
  | none => cases hb : c.binary <;> simp [hrs, hb]
  | some rs =>
    by_cases hrse : rs = "" <;> cases hb : c.binary <;> simp [hrs, hb, hrse]

/-- Witness for the amended claim C7: the concrete command-not-found
scenario still yields a record with a non-null file and an archived
output entry. -/
theorem c7_witness :
    s7.timeout_hit = false
    ∧ ((getCmdOutputNow run7 pathExW optsW s7 c7cmd (0 + 2) 5).1.executed_commands
        = s7.executed_commands
          ++ [{ exe := c7cmd.cmd,
                file := some ((makeCommandFilename pathExW s7.cmddir
                  s7.plugName s7.nameMax (effectiveExe c7cmd) c7cmd.subdir
                  5).drop (s7.cmddir.length + 1)),
                binary := c7cmd.binary }]
      ∧ ∃ out : List Nat,
          (getCmdOutputNow run7 pathExW optsW s7 c7cmd (0 + 2) 5).1.archive
            = (s7.archive
                ++ [if c7cmd.binary then
                      ArchiveEntry.bin out (makeCommandFilename pathExW
                        s7.cmddir s7.plugName s7.nameMax (effectiveExe c7cmd)
                        c7cmd.subdir 5)
                    else
                      ArchiveEntry.str out (makeCommandFilename pathExW
                        s7.cmddir s7.plugName s7.nameMax (effectiveExe c7cmd)
                        c7cmd.subdir 5)])
              ++ (match c7cmd.root_symlink with
                  | some rs =>
                    if rs = "" then []
                    else [ArchiveEntry.link (makeCommandFilename pathExW
                      s7.cmddir s7.plugName s7.nameMax (effectiveExe c7cmd)
                      c7cmd.subdir 5) rs]
                  | none => [])) :=
  ⟨rfl, c7_amended_record_always_has_file run7 pathExW optsW s7 c7cmd 0 5 rfl⟩
